import Mathlib

/-!
# Verification of the REST storage adapter (`rest.go`)

Shallow embedding of the Caddy REST storage adapter.  Each Go method of
`RestStorage` is translated into an executable Lean function.  The HTTP
transport is modelled by an oracle: each operation receives the outcome of
its single POST (`NetOutcome`), and the polling `Lock` loop receives a
stream of outcomes indexed by attempt number.  Fallible standard-library
steps that do not depend on the request content (`json.Marshal` of a
struct of strings, `http.NewRequestWithContext`) are modelled by boolean
success flags, and the caller's `context.Context` by a cancellation flag
(for `Lock`, a flag per attempt): `client.Do` on a request built with
`http.NewRequestWithContext` fails with the context's error once the
context is cancelled, which `doRequest` mirrors by checking the flag
before consulting the network oracle.

Machine integers (`int64` sizes, status codes) are modelled as `Int`/`Nat`;
no arithmetic here approaches an overflow boundary.
-/

/-- The error values the Go methods can return, by kind.
`msg` is an error built with `errors.New`/`fmt.Errorf` carrying only a
message string; `notExist` is the distinguished `fs.ErrNotExist` sentinel;
`marshal`, `reqBuild`, `decode`, `base64Err` and `timeParse` stand for the
opaque errors of `json.Marshal`, `http.NewRequestWithContext`,
`json.Decoder.Decode`, `base64.StdEncoding.DecodeString` and `time.Parse`;
`transport c` is a `client.Do` failure, with `c = true` when it was caused
by the caller's cancelled context. -/
inductive GoError where
  | msg (s : String)
  | notExist
  | marshal
  | reqBuild
  | transport (ctxCancelled : Bool)
  | decode
  | base64Err
  | timeParse
deriving DecidableEq, Repr

/-- Outcome of one HTTP POST as seen by the adapter: either `client.Do`
failed for a transport reason, or a response arrived with a status code
and (for operations that read the body) the result of decoding the body,
`none` standing for a body that fails to decode. -/
inductive NetOutcome (β : Type) where
  | err
  | response (status : Nat) (body : β)
deriving DecidableEq, Repr

deriving instance DecidableEq for Except

/-- Model of `client.Do` on a request carrying the caller's context: if the context
is cancelled the call fails with the context's (cancellation) error,
otherwise the network outcome decides. -/
def doRequest {β : Type} (cancelled : Bool) (net : NetOutcome β) :
    Except GoError (Nat × β) :=
  if cancelled then .error (.transport true)
  else
    match net with
    | .err => .error (.transport false)
    | .response s b => .ok (s, b)

/-- The adapter's configuration (Go struct `RestStorage`; the private
`*http.Client` field carries no observable state and is omitted). -/
structure RestStorage where
  Endpoint : String
  Token : String
deriving DecidableEq, Repr

/-- Model of `func (r RestStorage) Validate() error`: `some m` models returning
`errors.New m`, `none` models returning `nil`. -/
def RestStorage.Validate (r : RestStorage) : Option String :=
  if r.Endpoint = "" then some ("endpoint must be specified")
  else if r.Token = "" then some ("token must be specified")
  else none

/-- Model of `func (r *RestStorage) UnmarshalCaddyfile(d *caddyfile.Dispenser) error`.
The dispenser is modelled as the sequence of iterations of `for d.Next()`:
each entry is the token returned by `d.Val()` paired with `some value`
when `d.Args(&value)` succeeds and `none` when it fails (no argument on
the line, in which case the code `continue`s). -/
def RestStorage.UnmarshalCaddyfile (r : RestStorage) :
    List (String × Option String) → Except String RestStorage
  | [] => .ok r
  | (_, none) :: rest => RestStorage.UnmarshalCaddyfile r rest
  | (key, some value) :: rest =>
      RestStorage.UnmarshalCaddyfile
        (if key = "endpoint" then ⟨value, r.Token⟩
         else if key = "token" then ⟨r.Endpoint, value⟩
         else r) rest

/-! ## Base64 (Go `encoding/base64`, `StdEncoding`)

Bytes are modelled as `Nat` values below 256.  `encodeGroups` is
`EncodeToString` and `decodeGroups` is `DecodeString` restricted to the
claims' needs: the Go decoder additionally skips `\r`/`\n` characters,
which the encoder never emits, so that case is not modelled. -/

/-- The standard base64 alphabet: sextet value to character. -/
def b64Char (n : Nat) : Char :=
  if n < 26 then Char.ofNat (65 + n)
  else if n < 52 then Char.ofNat (97 + (n - 26))
  else if n < 62 then Char.ofNat (48 + (n - 52))
  else if n = 62 then '+'
  else '/'

/-- Inverse alphabet lookup: character to sextet value, `none` for a
character outside the alphabet (including the padding sign). -/
def b64Index (c : Char) : Option Nat :=
  if 65 ≤ c.toNat ∧ c.toNat ≤ 90 then some (c.toNat - 65)
  else if 97 ≤ c.toNat ∧ c.toNat ≤ 122 then some (c.toNat - 97 + 26)
  else if 48 ≤ c.toNat ∧ c.toNat ≤ 57 then some (c.toNat - 48 + 52)
  else if c = '+' then some 62
  else if c = '/' then some 63
  else none

/-- Model of `base64.StdEncoding.EncodeToString`, processing input three bytes at a
time and padding the final one- or two-byte group with `=`. -/
def encodeGroups (v : List Nat) : List Char :=
  match v with
  | b0 :: b1 :: b2 :: rest =>
      b64Char (b0 / 4) :: b64Char (b0 % 4 * 16 + b1 / 16) ::
        b64Char (b1 % 16 * 4 + b2 / 64) :: b64Char (b2 % 64) :: encodeGroups rest
  | [b0, b1] => [b64Char (b0 / 4), b64Char (b0 % 4 * 16 + b1 / 16), b64Char (b1 % 16 * 4), '=']
  | [b0] => [b64Char (b0 / 4), b64Char (b0 % 4 * 16), '=', '=']
  | [] => []
termination_by structural v

/-- Model of `base64.StdEncoding.DecodeString`, processing input four characters at
a time; padding may only occur in the final quantum, the input length must
be a multiple of four, and any character outside the alphabet is an error
(`none`). -/
def decodeGroups (cs : List Char) : Option (List Nat) :=
  match cs with
  | [] => some []
  | c0 :: c1 :: c2 :: c3 :: rest =>
    match b64Index c0, b64Index c1 with
    | some s0, some s1 =>
      if c2 = '=' then
        if c3 = '=' then
          if rest.isEmpty then some [s0 * 4 + s1 / 16] else none
        else none
      else
        match b64Index c2 with
        | some s2 =>
          if c3 = '=' then
            if rest.isEmpty then some [s0 * 4 + s1 / 16, s1 % 16 * 16 + s2 / 4] else none
          else
            match b64Index c3 with
            | some s3 =>
              match decodeGroups rest with
              | some ds =>
                  some ((s0 * 4 + s1 / 16) :: (s1 % 16 * 16 + s2 / 4) :: (s2 % 4 * 64 + s3) :: ds)
              | none => none
            | none => none
        | none => none
    | _, _ => none
  | _ => none
termination_by structural cs

lemma b64Index_b64Char : ∀ n, n < 64 → b64Index (b64Char n) = some n := by decide

lemma b64Char_ne_pad : ∀ n, n < 64 → b64Char n ≠ '=' := by decide

/-- Decoding inverts encoding on every byte sequence. -/
theorem decodeGroups_encodeGroups : ∀ v : List Nat, (∀ b ∈ v, b < 256) →
    decodeGroups (encodeGroups v) = some v
  | [], _ => rfl
  | [b0], h => by
    have hb0 : b0 < 256 := h b0 (by simp)
    have e0 := b64Index_b64Char (b0 / 4) (by omega)
    have e1 := b64Index_b64Char (b0 % 4 * 16) (by omega)
    simp only [encodeGroups, decodeGroups, e0, e1, if_pos rfl, List.isEmpty_nil]
    simp only [if_pos trivial, Option.some.injEq, List.cons.injEq, and_true]
    omega
  | [b0, b1], h => by
    have hb0 : b0 < 256 := h b0 (by simp)
    have hb1 : b1 < 256 := h b1 (by simp)
    have e0 := b64Index_b64Char (b0 / 4) (by omega)
    have e1 := b64Index_b64Char (b0 % 4 * 16 + b1 / 16) (by omega)
    have e2 := b64Index_b64Char (b1 % 16 * 4) (by omega)
    have n2 := b64Char_ne_pad (b1 % 16 * 4) (by omega)
    simp only [encodeGroups, decodeGroups, e0, e1, e2, if_neg n2, if_pos rfl, List.isEmpty_nil]
    simp only [if_pos trivial, Option.some.injEq, List.cons.injEq, and_true]
    constructor <;> omega
  | b0 :: b1 :: b2 :: (rest : List Nat), h => by
    have hb0 : b0 < 256 := h b0 (by simp)
    have hb1 : b1 < 256 := h b1 (by simp)
    have hb2 : b2 < 256 := h b2 (by simp)
    have ih := decodeGroups_encodeGroups rest
      (fun b hb => h b (by simp [hb]))
    have e0 := b64Index_b64Char (b0 / 4) (by omega)
    have e1 := b64Index_b64Char (b0 % 4 * 16 + b1 / 16) (by omega)
    have e2 := b64Index_b64Char (b1 % 16 * 4 + b2 / 64) (by omega)
    have e3 := b64Index_b64Char (b2 % 64) (by omega)
    have n2 := b64Char_ne_pad (b1 % 16 * 4 + b2 / 64) (by omega)
    have n3 := b64Char_ne_pad (b2 % 64) (by omega)
    show decodeGroups (b64Char (b0 / 4) :: b64Char (b0 % 4 * 16 + b1 / 16) ::
        b64Char (b1 % 16 * 4 + b2 / 64) :: b64Char (b2 % 64) :: encodeGroups rest) = _
    simp only [decodeGroups, e0, e1, e2, e3, if_neg n2, if_neg n3, ih]
    simp only [Option.some.injEq, List.cons.injEq, and_true]
    refine ⟨by omega, by omega, by omega⟩

example : encodeGroups [77, 97, 110] = ['T', 'W', 'F', 'u'] := by decide
example : encodeGroups [77, 97] = ['T', 'W', 'E', '='] := by decide
example : encodeGroups [77] = ['T', 'Q', '=', '='] := by decide
example : decodeGroups ['T', 'Q', '=', '='] = some [77] := by decide

/-! ## The unexpected-status error message

Every operation that rejects a status code builds its error with
`fmt.Errorf("Unknown status code received: {}", resp.StatusCode)`.  The
format string has no verb, so `fmt` renders the literal text (including
the braces) and appends the spare operand as `%!(EXTRA int=<code>)` —
the decimal status code therefore still appears in the message. -/

/-- Decimal digit to character. -/
def digitChar (n : Nat) : Char := Char.ofNat (48 + n)

/-- Value of a string of decimal digit characters, most significant
first. -/
def digitsVal (l : List Char) : Nat :=
  List.foldl (fun acc c => acc * 10 + (c.toNat - 48)) 0 l

/-- Decimal digits of `n`, most significant first, with explicit fuel so
the definition is structurally recursive. -/
def decDigitsAux (fuel n : Nat) : List Char :=
  match fuel with
  | 0 => []
  | fuel + 1 => if n < 10 then [digitChar n] else decDigitsAux fuel (n / 10) ++ [digitChar (n % 10)]

/-- Decimal representation of `n` (how `fmt` renders an `int`). -/
def decDigits (n : Nat) : List Char := decDigitsAux (n + 1) n

lemma digitChar_toNat : ∀ n, n < 10 → (digitChar n).toNat = 48 + n := by decide

lemma digitsVal_append_digit (l : List Char) (c : Char) :
    digitsVal (l ++ [c]) = digitsVal l * 10 + (c.toNat - 48) := by
  simp [digitsVal, List.foldl_append]

lemma digitsVal_decDigitsAux : ∀ fuel n, n < fuel → digitsVal (decDigitsAux fuel n) = n := by
  intro fuel
  induction fuel with
  | zero => omega
  | succ fuel ih =>
    intro n hn
    by_cases h : n < 10
    · simp [decDigitsAux, h, digitsVal, digitChar_toNat n h]
    · have hrec : n / 10 < fuel := by omega
      simp only [decDigitsAux, if_neg h, digitsVal_append_digit, ih (n / 10) hrec,
        digitChar_toNat (n % 10) (by omega)]
      omega

lemma digitsVal_decDigits (n : Nat) : digitsVal (decDigits n) = n :=
  digitsVal_decDigitsAux (n + 1) n (by omega)

lemma decDigits_injective : ∀ a b : Nat, decDigits a = decDigits b → a = b := by
  intro a b h
  have := congrArg digitsVal h
  rwa [digitsVal_decDigits, digitsVal_decDigits] at this

/-- The message of `fmt.Errorf("Unknown status code received: {}", s)`. -/
def unexpectedMsg (s : Nat) : String :=
  "Unknown status code received: \x7b\x7d%!(EXTRA int=" ++ String.mk (decDigits s) ++ ")"

lemma unexpectedMsg_injective : ∀ s t : Nat, unexpectedMsg s = unexpectedMsg t → s = t := by
  intro s t h
  have hd := congrArg String.data h
  simp only [unexpectedMsg, String.data_append, List.append_assoc] at hd
  have hmid := List.append_cancel_left hd
  exact decDigits_injective s t (List.append_cancel_right hmid)

example : unexpectedMsg 500 = "Unknown status code received: \x7b\x7d%!(EXTRA int=500)" := by decide

/-! ## Request and response records (the JSON wire shapes) -/

/-- Body of the `lock` POST. -/
structure LockRequest where
  Key : String
  Token : String
deriving DecidableEq, Repr

/-- Body of the `unlock` POST. -/
structure UnlockRequest where
  Key : String
  Token : String
deriving DecidableEq, Repr

/-- Body of the `store` POST; `Value` is the base64-encoded payload. -/
structure StoreRequest where
  Key : String
  Value : String
  Token : String
deriving DecidableEq, Repr

/-- Body of the `load` POST. -/
structure LoadRequest where
  Key : String
  Token : String
deriving DecidableEq, Repr

/-- Decoded body of a `load` response. -/
structure LoadResponse where
  Value : String
deriving DecidableEq, Repr

/-- Body of the `delete` POST. -/
structure DeleteRequest where
  Key : String
  Token : String
deriving DecidableEq, Repr

/-- Body of the `exists` POST. -/
structure ExistsRequest where
  Key : String
  Token : String
deriving DecidableEq, Repr

/-- Decoded body of an `exists` response. -/
structure ExistsResponse where
  Exists : Bool
deriving DecidableEq, Repr

/-- Body of the `list` POST. -/
structure ListRequest where
  Prefix : String
  Recursive : Bool
  Token : String
deriving DecidableEq, Repr

/-- Decoded body of a `list` response. -/
structure ListResponse where
  Keys : List String
deriving DecidableEq, Repr

/-- Body of the `stat` POST. -/
structure StatRequest where
  Key : String
  Token : String
deriving DecidableEq, Repr

/-- Decoded body of a `stat` response; `Modified` is the raw timestamp
string, `Size` models the Go `int64`. -/
structure StatResponse where
  Key : String
  Modified : String
  Size : Int
  IsTerminal : Bool
deriving DecidableEq, Repr

/-! ## The operations -/

/-- One iteration of `Lock`'s polling loop up to the status check:
`http.NewRequestWithContext` (whose failure does not depend on the
context), then `client.Do` on the context-carrying request, yielding
either an error or the response status (the body is closed unread). -/
def lockStep (reqOk ctx : Nat → Bool) (net : Nat → NetOutcome Unit) (i : Nat) :
    Except GoError Nat :=
  if reqOk i = false then .error .reqBuild
  else
    match doRequest (ctx i) (net i) with
    | .error e => .error e
    | .ok sb => .ok sb.1

/-- The `for` loop of `Lock`, started at attempt `i` with `fuel`
iterations of budget: `none` means the loop is still polling after `fuel`
attempts, `some` is the value `Lock` returns.  Status 201 returns `nil`,
any status other than 412 returns the unexpected-status error, and 412
polls again. -/
def lockLoop (reqOk ctx : Nat → Bool) (net : Nat → NetOutcome Unit) :
    Nat → Nat → Option (Except GoError Unit)
  | 0, _ => none
  | fuel + 1, i =>
    match lockStep reqOk ctx net i with
    | .error e => some (.error e)
    | .ok s =>
      if s = 201 then some (.ok ())
      else if s ≠ 412 then some (.error (.msg (unexpectedMsg s)))
      else lockLoop reqOk ctx net fuel (i + 1)

/-- Model of `func (r *RestStorage) Lock(ctx context.Context, key string) error`:
marshal the `LockRequest` once, then poll.  `ctx i` tells whether the
caller's context has been cancelled by the time of attempt `i`, and
`net q i` is the network outcome of attempt `i` for request body `q`. -/
def RestStorage.Lock (r : RestStorage) (key : String) (marshalOk : Bool)
    (reqOk ctx : Nat → Bool) (net : LockRequest → Nat → NetOutcome Unit)
    (fuel : Nat) : Option (Except GoError Unit) :=
  if marshalOk = false then some (.error .marshal)
  else lockLoop reqOk ctx (net ⟨key, r.Token⟩) fuel 0

/-- Model of `func (r *RestStorage) Unlock(ctx context.Context, key string) error`:
one POST; any status other than 204 is the unexpected-status error. -/
def RestStorage.Unlock (r : RestStorage) (key : String) (marshalOk reqOk ctx : Bool)
    (net : UnlockRequest → NetOutcome Unit) : Except GoError Unit :=
  if marshalOk = false then .error .marshal
  else if reqOk = false then .error .reqBuild
  else
    match doRequest ctx (net ⟨key, r.Token⟩) with
    | .error e => .error e
    | .ok sb => if sb.1 ≠ 204 then .error (.msg (unexpectedMsg sb.1)) else .ok ()

/-- The `StoreRequest` built by `Store`: the value is base64-encoded into
the wire `value` field. -/
def storeRequest (r : RestStorage) (key : String) (value : List Nat) : StoreRequest :=
  ⟨key, String.mk (encodeGroups value), r.Token⟩

/-- Model of `func (r *RestStorage) Store(ctx context.Context, key string, value []byte) error`:
one POST of the base64-encoded value; only status 201 is success. -/
def RestStorage.Store (r : RestStorage) (key : String) (value : List Nat)
    (marshalOk reqOk ctx : Bool) (net : StoreRequest → NetOutcome Unit) :
    Except GoError Unit :=
  if marshalOk = false then .error .marshal
  else if reqOk = false then .error .reqBuild
  else
    match doRequest ctx (net (storeRequest r key value)) with
    | .error e => .error e
    | .ok sb => if sb.1 ≠ 201 then .error (.msg (unexpectedMsg sb.1)) else .ok ()

/-- Model of `func (r *RestStorage) Load(ctx context.Context, key string) ([]byte, error)`:
one POST; 404 maps to `fs.ErrNotExist`, any status other than 200 is the
unexpected-status error, then the body is JSON-decoded and its `value`
field base64-decoded. -/
def RestStorage.Load (r : RestStorage) (key : String) (marshalOk reqOk ctx : Bool)
    (net : LoadRequest → NetOutcome (Option LoadResponse)) :
    Except GoError (List Nat) :=
  if marshalOk = false then .error .marshal
  else if reqOk = false then .error .reqBuild
  else
    match doRequest ctx (net ⟨key, r.Token⟩) with
    | .error e => .error e
    | .ok sb =>
      if sb.1 = 404 then .error .notExist
      else if sb.1 ≠ 200 then .error (.msg (unexpectedMsg sb.1))
      else
        match sb.2 with
        | none => .error .decode
        | some lr =>
          match decodeGroups lr.Value.data with
          | none => .error .base64Err
          | some v => .ok v

/-- Model of `func (r *RestStorage) Delete(ctx context.Context, key string) error`:
one POST; 404 maps to `fs.ErrNotExist`, any status other than 204 is the
unexpected-status error. -/
def RestStorage.Delete (r : RestStorage) (key : String) (marshalOk reqOk ctx : Bool)
    (net : DeleteRequest → NetOutcome Unit) : Except GoError Unit :=
  if marshalOk = false then .error .marshal
  else if reqOk = false then .error .reqBuild
  else
    match doRequest ctx (net ⟨key, r.Token⟩) with
    | .error e => .error e
    | .ok sb =>
      if sb.1 = 404 then .error .notExist
      else if sb.1 ≠ 204 then .error (.msg (unexpectedMsg sb.1))
      else .ok ()

/-- Model of `func (r *RestStorage) Exists(ctx context.Context, key string) bool`:
every failure (marshal, request build, transport, non-200 status, decode)
returns `false`; a decoded 200 body answers. -/
def RestStorage.Exists (r : RestStorage) (key : String) (marshalOk reqOk ctx : Bool)
    (net : ExistsRequest → NetOutcome (Option ExistsResponse)) : Bool :=
  if marshalOk = false then false
  else if reqOk = false then false
  else
    match doRequest ctx (net ⟨key, r.Token⟩) with
    | .error _ => false
    | .ok sb =>
      if sb.1 ≠ 200 then false
      else
        match sb.2 with
        | none => false
        | some er => er.Exists

/-- Result type of `List` (`[]string` in Go). -/
abbrev KeyNames := List String

/-- Model of `func (r *RestStorage) List(ctx context.Context, prefix string, recursive bool) ([]string, error)`:
one POST; 404 maps to `fs.ErrNotExist`, any status other than 200 is the
unexpected-status error, then the decoded `keys` field is passed through
verbatim. -/
def RestStorage.List (r : RestStorage) (pfx : String) (recursive : Bool)
    (marshalOk reqOk ctx : Bool)
    (net : ListRequest → NetOutcome (Option ListResponse)) :
    Except GoError KeyNames :=
  if marshalOk = false then .error .marshal
  else if reqOk = false then .error .reqBuild
  else
    match doRequest ctx (net ⟨pfx, recursive, r.Token⟩) with
    | .error e => .error e
    | .ok sb =>
      if sb.1 = 404 then .error .notExist
      else if sb.1 ≠ 200 then .error (.msg (unexpectedMsg sb.1))
      else
        match sb.2 with
        | none => .error .decode
        | some lr => .ok lr.Keys

/-! ## RFC3339 timestamp parsing (Go `time.Parse(time.RFC3339, s)`)

Modelled from the documented behaviour of Go's parser for the layout
`2006-01-02T15:04:05Z07:00`: four year digits, dashes, two digits for
month/day/hour/minute/second with `T` and colons, an optional fractional
second of one to nine digits, and either `Z` or a `±hh:mm` offset.  All
fields are range-checked (months 1..12, days per month with leap years,
hours to 23, minutes and seconds to 59, offset hours to 23 and minutes to
59) and nothing may follow the offset.  The result is the denoted instant
as seconds since the Unix epoch plus nanoseconds. -/

/-- Is `c` a decimal digit. -/
def isDigitChar (c : Char) : Bool := 48 ≤ c.toNat && c.toNat ≤ 57

/-- Read exactly `k` digit characters into a number, returning the
remaining input. -/
def readDigits (k : Nat) (cs : List Char) (acc : Nat) : Option (Nat × List Char) :=
  match k with
  | 0 => some (acc, cs)
  | k + 1 =>
    match cs with
    | c :: rest =>
        if isDigitChar c then readDigits k rest (acc * 10 + (c.toNat - 48)) else none
    | [] => none

/-- Consume one expected character. -/
def expectChar (c : Char) (cs : List Char) : Option (List Char) :=
  match cs with
  | c0 :: rest => if c0 = c then some rest else none
  | [] => none

/-- Optional fractional second: a period followed by one to nine digits,
scaled to nanoseconds; absent fraction is zero nanoseconds. -/
def parseFrac (cs : List Char) : Option (Nat × List Char) :=
  match cs with
  | '.' :: rest =>
    let ds := rest.takeWhile isDigitChar
    if ds.length = 0 then none
    else if ds.length ≤ 9 then
      some (digitsVal ds * 10 ^ (9 - ds.length), rest.dropWhile isDigitChar)
    else none
  | other => some (0, other)

/-- Time-zone suffix: `Z` for UTC or `±hh:mm`, returned as the offset in
seconds east of UTC. -/
def parseOffset (cs : List Char) : Option (Int × List Char) :=
  match cs with
  | 'Z' :: rest => some (0, rest)
  | c :: rest =>
    if c = '+' ∨ c = '-' then
      match readDigits 2 rest 0 with
      | some (hh, r1) =>
        match expectChar ':' r1 with
        | some r2 =>
          match readDigits 2 r2 0 with
          | some (mm, r3) =>
            if hh ≤ 23 ∧ mm ≤ 59 then
              some (if c = '-' then -(Int.ofNat (hh * 3600 + mm * 60))
                    else Int.ofNat (hh * 3600 + mm * 60), r3)
            else none
          | none => none
        | none => none
      | none => none
    else none
  | [] => none

/-- Gregorian leap year. -/
def isLeap (y : Nat) : Bool := y % 4 = 0 && (y % 100 ≠ 0 || y % 400 = 0)

/-- Number of days in a month. -/
def daysInMonth (y m : Nat) : Nat :=
  if m = 2 then (if isLeap y then 29 else 28)
  else if m = 4 ∨ m = 6 ∨ m = 9 ∨ m = 11 then 30
  else 31

/-- Days from the Unix epoch (1970-01-01) to the civil date `y-m-d`. -/
def daysFromCivil (y m d : Nat) : Int :=
  let yi : Int := if m ≤ 2 then (y : Int) - 1 else (y : Int)
  let era : Int := (if 0 ≤ yi then yi else yi - 399) / 400
  let yoe : Int := yi - era * 400
  let mp : Int := if m > 2 then (m : Int) - 3 else (m : Int) + 9
  let doy : Int := (153 * mp + 2) / 5 + (d : Int) - 1
  let doe : Int := yoe * 365 + yoe / 4 - yoe / 100 + doy
  era * 146097 + doe - 719468

/-- An instant as Go's `time.Time` compares: seconds since the Unix epoch
and nanoseconds. -/
structure GoTime where
  sec : Int
  nsec : Nat
deriving DecidableEq, Repr

/-- The calendar-date half of the layout: `2006-01-02`. -/
def parseDate (cs : List Char) : Option ((Nat × Nat × Nat) × List Char) := do
  let (y, r1) ← readDigits 4 cs 0
  let r2 ← expectChar '-' r1
  let (mo, r3) ← readDigits 2 r2 0
  let r4 ← expectChar '-' r3
  let (d, r5) ← readDigits 2 r4 0
  some ((y, mo, d), r5)

/-- The time-of-day half of the layout: `T15:04:05`. -/
def parseClock (cs : List Char) : Option ((Nat × Nat × Nat) × List Char) := do
  let r0 ← expectChar 'T' cs
  let (h, r1) ← readDigits 2 r0 0
  let r2 ← expectChar ':' r1
  let (mi, r3) ← readDigits 2 r2 0
  let r4 ← expectChar ':' r3
  let (ss, r5) ← readDigits 2 r4 0
  some ((h, mi, ss), r5)

/-- Model of `time.Parse(time.RFC3339, s)`: `some` of the denoted instant for a
well-formed, range-valid timestamp, `none` (a `*time.ParseError`)
otherwise. -/
def rfc3339Parse (s : String) : Option GoTime := do
  let (ymd, r1) ← parseDate s.data
  let (hms, r2) ← parseClock r1
  let (ns, r3) ← parseFrac r2
  let (off, r4) ← parseOffset r3
  if r4 = [] ∧ 1 ≤ ymd.2.1 ∧ ymd.2.1 ≤ 12 ∧ 1 ≤ ymd.2.2 ∧
      ymd.2.2 ≤ daysInMonth ymd.1 ymd.2.1 ∧ hms.1 ≤ 23 ∧ hms.2.1 ≤ 59 ∧ hms.2.2 ≤ 59 then
    some ⟨daysFromCivil ymd.1 ymd.2.1 ymd.2.2 * 86400 +
      (Int.ofNat (hms.1 * 3600 + hms.2.1 * 60 + hms.2.2)) - off, ns⟩
  else none

example : rfc3339Parse ("2023-05-01T12:00:00Z") = some ⟨1682942400, 0⟩ := by decide
example : rfc3339Parse ("1970-01-01T00:00:00Z") = some ⟨0, 0⟩ := by decide
example : rfc3339Parse ("2021-01-01T00:00:30.5+02:00") = some ⟨1609452030, 500000000⟩ := by decide
example : rfc3339Parse ("2023-13-01T00:00:00Z") = none := by decide
example : rfc3339Parse ("2023-02-29T00:00:00Z") = none := by decide
example : rfc3339Parse ("not-a-timestamp") = none := by decide

/-- Model of `certmagic.KeyInfo`, the result of `Stat`. -/
structure KeyInfo where
  Key : String
  Modified : GoTime
  Size : Int
  IsTerminal : Bool
deriving DecidableEq, Repr

/-- Model of `func (r *RestStorage) Stat(ctx context.Context, key string) (certmagic.KeyInfo, error)`:
one POST; 404 maps to `fs.ErrNotExist`, any status other than 200 is the
unexpected-status error; the decoded body's `modified` field is parsed as
RFC3339, a malformed timestamp being an error. -/
def RestStorage.Stat (r : RestStorage) (key : String) (marshalOk reqOk ctx : Bool)
    (net : StatRequest → NetOutcome (Option StatResponse)) :
    Except GoError KeyInfo :=
  if marshalOk = false then .error .marshal
  else if reqOk = false then .error .reqBuild
  else
    match doRequest ctx (net ⟨key, r.Token⟩) with
    | .error e => .error e
    | .ok sb =>
      if sb.1 = 404 then .error .notExist
      else if sb.1 ≠ 200 then .error (.msg (unexpectedMsg sb.1))
      else
        match sb.2 with
        | none => .error .decode
        | some sr =>
          match rfc3339Parse sr.Modified with
          | none => .error .timeParse
          | some t => .ok ⟨sr.Key, t, sr.Size, sr.IsTerminal⟩


/-! ## Helper lemmas about the lock loop -/

lemma lockStep_eq_ok (reqOk ctx : Nat → Bool) (net : Nat → NetOutcome Unit) (i s : Nat) :
    lockStep reqOk ctx net i = .ok s ↔
      reqOk i = true ∧ ctx i = false ∧ net i = .response s () := by
  unfold lockStep doRequest
  cases hr : reqOk i
  · simp
  · cases hc : ctx i
    · cases hn : net i with
      | err => simp
      | response st b =>
        cases b
        simp [NetOutcome.response.injEq, eq_comm]
    · simp

lemma lockLoop_ok_iff (reqOk ctx : Nat → Bool) (net : Nat → NetOutcome Unit) :
    ∀ fuel i, lockLoop reqOk ctx net fuel i = some (.ok ()) ↔
      ∃ n, i ≤ n ∧ n < i + fuel ∧ lockStep reqOk ctx net n = .ok 201 ∧
        ∀ m, i ≤ m → m < n → lockStep reqOk ctx net m = .ok 412 := by
  intro fuel
  induction fuel with
  | zero =>
    intro i
    simp only [lockLoop]
    constructor
    · intro h; exact absurd h (by simp)
    · rintro ⟨n, hin, hlt, -, -⟩; omega
  | succ fuel ih =>
    intro i
    constructor
    · intro h
      rw [lockLoop] at h
      cases hstep : lockStep reqOk ctx net i with
      | error e =>
        rw [hstep] at h
        simp at h
      | ok s =>
        rw [hstep] at h
        by_cases h201 : s = 201
        · subst h201
          exact ⟨i, le_refl i, by omega, hstep, fun m hm1 hm2 => absurd hm1 (by omega)⟩
        · by_cases h412 : s = 412
          · subst h412
            simp at h
            obtain ⟨n, hn1, hn2, hn3, hn4⟩ := (ih (i + 1)).mp h
            refine ⟨n, by omega, by omega, hn3, fun m hm1 hm2 => ?_⟩
            rcases Nat.eq_or_lt_of_le hm1 with hmi | hmi
            · exact hmi ▸ hstep
            · exact hn4 m (by omega) hm2
          · simp [h201, h412] at h
    · rintro ⟨n, hin, hlt, h201, hprev⟩
      rcases Nat.eq_or_lt_of_le hin with hni | hni
      · subst hni
        rw [lockLoop, h201]
        simp
      · have hstepi : lockStep reqOk ctx net i = .ok 412 := hprev i (le_refl i) hni
        rw [lockLoop, hstepi]
        show lockLoop reqOk ctx net fuel (i + 1) = some (Except.ok ())
        exact (ih (i + 1)).mpr ⟨n, by omega, by omega, h201, fun m hm1 hm2 =>
          hprev m (by omega) hm2⟩

lemma lockLoop_all_412 (reqOk ctx : Nat → Bool) (net : Nat → NetOutcome Unit)
    (hall : ∀ j, lockStep reqOk ctx net j = .ok 412) :
    ∀ fuel i, lockLoop reqOk ctx net fuel i = none := by
  intro fuel
  induction fuel with
  | zero => intro i; rfl
  | succ fuel ih =>
    intro i
    rw [lockLoop, hall i]
    simpa using ih (i + 1)

/-! ## The claims -/

/-- C1: for every execution of `Lock`, success is returned exactly when a
201 response is observed (after a run of 412 responses only); on every 412
response the loop issues another attempt; on any status other than 201 and
412 it terminates immediately with the unexpected-status error; and while
every attempt keeps answering 412 the loop never terminates. -/
theorem lock_status_protocol (r : RestStorage) (key : String) (reqOk ctx : Nat → Bool)
    (net : LockRequest → Nat → NetOutcome Unit) :
    (∀ fuel, RestStorage.Lock r key true reqOk ctx net fuel = some (.ok ()) ↔
      ∃ n, n < fuel ∧ lockStep reqOk ctx (net ⟨key, r.Token⟩) n = .ok 201 ∧
        ∀ m, m < n → lockStep reqOk ctx (net ⟨key, r.Token⟩) m = .ok 412)
    ∧ (∀ fuel i, lockStep reqOk ctx (net ⟨key, r.Token⟩) i = .ok 412 →
        lockLoop reqOk ctx (net ⟨key, r.Token⟩) (fuel + 1) i =
          lockLoop reqOk ctx (net ⟨key, r.Token⟩) fuel (i + 1))
    ∧ (∀ fuel i s, lockStep reqOk ctx (net ⟨key, r.Token⟩) i = .ok s → s ≠ 201 → s ≠ 412 →
        lockLoop reqOk ctx (net ⟨key, r.Token⟩) (fuel + 1) i =
          some (.error (.msg (unexpectedMsg s))))
    ∧ ((∀ j, lockStep reqOk ctx (net ⟨key, r.Token⟩) j = .ok 412) →
        ∀ fuel, RestStorage.Lock r key true reqOk ctx net fuel = none) := by
  refine ⟨?_, ?_, ?_, ?_⟩
  · intro fuel
    show lockLoop reqOk ctx (net ⟨key, r.Token⟩) fuel 0 = some (.ok ()) ↔ _
    rw [lockLoop_ok_iff]
    constructor
    · rintro ⟨n, -, hlt, h201, hprev⟩
      exact ⟨n, by omega, h201, fun m hm => hprev m (by omega) hm⟩
    · rintro ⟨n, hlt, h201, hprev⟩
      exact ⟨n, by omega, by omega, h201, fun m _ hm => hprev m hm⟩
  · intro fuel i hstep
    rw [lockLoop, hstep]
    rfl
  · intro fuel i s hstep h201 h412
    rw [lockLoop, hstep]
    simp [h201, h412]
  · intro hall fuel
    show lockLoop reqOk ctx (net ⟨key, r.Token⟩) fuel 0 = none
    exact lockLoop_all_412 reqOk ctx (net ⟨key, r.Token⟩) hall fuel 0

/-- Witness for C1: against a remote answering 412 twice and then 201,
`Lock` succeeds; against a remote answering 500, the loop stops at once
with the unexpected-status error. -/
theorem lock_status_protocol_witness :
    RestStorage.Lock ⟨"http://s/", "tok"⟩ ("k") true (fun _ => true) (fun _ => false)
        (fun _ i => .response (if i < 2 then 412 else 201) ()) 5 = some (.ok ())
    ∧ lockLoop (fun _ => true) (fun _ => false) (fun _ => .response 500 ()) 4 0 =
        some (.error (.msg (unexpectedMsg 500))) := by
  constructor
  · exact ((lock_status_protocol ⟨"http://s/", "tok"⟩ ("k") (fun _ => true) (fun _ => false)
      (fun _ i => .response (if i < 2 then 412 else 201) ())).1 5).mpr
      ⟨2, by omega, rfl, fun m hm => by interval_cases m <;> rfl⟩
  · exact (lock_status_protocol ⟨"http://s/", "tok"⟩ ("k") (fun _ => true) (fun _ => false)
      (fun _ _ => .response 500 ())).2.2.1 3 0 500 rfl (by omega) (by omega)

lemma lockStep_cancelled (reqOk ctx : Nat → Bool) (net : Nat → NetOutcome Unit) (i : Nat)
    (hctx : ctx i = true) (hreq : reqOk i = true) :
    lockStep reqOk ctx net i = .error (.transport true) := by
  unfold lockStep doRequest
  simp [hctx, hreq]

/-- C2: cancellation is propagated to every in-flight call.  Once the
caller's context is cancelled, the next `Lock` attempt returns the
context's cancellation error immediately, and a successful `Lock` run
certifies that the 201 was observed while the context was still alive
(the signal had not fired at any attempt up to and including the
successful one); every other operation invoked with a cancelled context
returns the cancellation error (and `Exists`, which has no error channel,
returns `false`). -/
theorem lock_cancellation_propagation (r : RestStorage) (key : String)
    (reqOk ctx : Nat → Bool) (net : LockRequest → Nat → NetOutcome Unit) :
    (∀ i fuel, ctx i = true → reqOk i = true →
      lockLoop reqOk ctx (net ⟨key, r.Token⟩) (fuel + 1) i = some (.error (.transport true)))
    ∧ (∀ fuel, RestStorage.Lock r key true reqOk ctx net fuel = some (.ok ()) →
        ∃ n, n < fuel ∧ ctx n = false ∧ reqOk n = true ∧
          net ⟨key, r.Token⟩ n = .response 201 () ∧ ∀ m, m ≤ n → ctx m = false)
    ∧ (∀ r' key' (net' : UnlockRequest → NetOutcome Unit),
        RestStorage.Unlock r' key' true true true net' = .error (.transport true))
    ∧ (∀ r' key' v (net' : StoreRequest → NetOutcome Unit),
        RestStorage.Store r' key' v true true true net' = .error (.transport true))
    ∧ (∀ r' key' (net' : LoadRequest → NetOutcome (Option LoadResponse)),
        RestStorage.Load r' key' true true true net' = .error (.transport true))
    ∧ (∀ r' key' (net' : DeleteRequest → NetOutcome Unit),
        RestStorage.Delete r' key' true true true net' = .error (.transport true))
    ∧ (∀ r' key' (net' : ExistsRequest → NetOutcome (Option ExistsResponse)),
        RestStorage.Exists r' key' true true true net' = false)
    ∧ (∀ r' pfx rec (net' : ListRequest → NetOutcome (Option ListResponse)),
        RestStorage.List r' pfx rec true true true net' = .error (.transport true))
    ∧ (∀ r' key' (net' : StatRequest → NetOutcome (Option StatResponse)),
        RestStorage.Stat r' key' true true true net' = .error (.transport true)) := by
  refine ⟨?_, ?_, fun _ _ _ => rfl, fun _ _ _ _ => rfl, fun _ _ _ => rfl, fun _ _ _ => rfl,
    fun _ _ _ => rfl, fun _ _ _ _ => rfl, fun _ _ _ => rfl⟩
  · intro i fuel hctx hreq
    rw [lockLoop, lockStep_cancelled reqOk ctx (net ⟨key, r.Token⟩) i hctx hreq]
  · intro fuel h
    obtain ⟨n, -, hlt, h201, hprev⟩ :=
      (lockLoop_ok_iff reqOk ctx (net ⟨key, r.Token⟩) fuel 0).mp h
    obtain ⟨hreq, hctx, hnet⟩ := (lockStep_eq_ok reqOk ctx (net ⟨key, r.Token⟩) n 201).mp h201
    refine ⟨n, by omega, hctx, hreq, hnet, fun m hm => ?_⟩
    rcases Nat.eq_or_lt_of_le hm with hmn | hmn
    · exact hmn ▸ hctx
    · exact ((lockStep_eq_ok reqOk ctx (net ⟨key, r.Token⟩) m 412).mp
        (hprev m (by omega) hmn)).2.1

/-- Witness for C2: with the context cancelled from the start and the
remote forever answering 412, `Lock`'s very next attempt returns the
cancellation error; a run that succeeds at the third attempt did so with
the signal unfired throughout. -/
theorem lock_cancellation_propagation_witness :
    lockLoop (fun _ => true) (fun _ => true) (fun _ => NetOutcome.response 412 ()) 3 0 =
      some (.error (.transport true))
    ∧ ∃ n, n < 5 ∧ (fun _ : Nat => false) n = false ∧ (fun _ : Nat => true) n = true ∧
        (fun i => NetOutcome.response (if i < 2 then 412 else 201) ()) n = .response 201 () ∧
        ∀ m, m ≤ n → (fun _ : Nat => false) m = false := by
  constructor
  · exact (lock_cancellation_propagation ⟨"http://s/", "tok"⟩ ("k") (fun _ => true)
      (fun _ => true) (fun _ _ => .response 412 ())).1 0 2 rfl rfl
  · exact (lock_cancellation_propagation ⟨"http://s/", "tok"⟩ ("k") (fun _ => true)
      (fun _ => false) (fun _ i => .response (if i < 2 then 412 else 201) ())).2.1 5
      (by decide)

/-- C3 counterexample: on a 404 response `Unlock` does not return the
distinguished not-found error; it falls into the generic unexpected-status
branch (the function has no 404 case, unlike `Load`/`Delete`/`List`/`Stat`). -/
theorem unlock_404_not_distinguished :
    RestStorage.Unlock ⟨"http://s/", "tok"⟩ ("k") true true false (fun _ => .response 404 ()) =
      .error (.msg (unexpectedMsg 404))
    ∧ RestStorage.Unlock ⟨"http://s/", "tok"⟩ ("k") true true false (fun _ => .response 404 ()) ≠
      .error .notExist := by
  refine ⟨rfl, ?_⟩
  intro h
  rw [show RestStorage.Unlock ⟨"http://s/", "tok"⟩ ("k") true true false
    (fun _ => .response 404 ()) = .error (.msg (unexpectedMsg 404)) from rfl] at h
  simp at h

/-- C3 as amended: `Unlock` issues exactly one POST and never retries; it
succeeds exactly when the response status is 204; every other status —
including 404, which gets no distinguished not-found mapping — yields the
unexpected-status error; and the result depends only on the outcome of
the single request. -/
theorem unlock_single_attempt_protocol (r : RestStorage) (key : String)
    (marshalOk reqOk c : Bool) (net : UnlockRequest → NetOutcome Unit) :
    (RestStorage.Unlock r key marshalOk reqOk c net = .ok () ↔
      marshalOk = true ∧ reqOk = true ∧ c = false ∧ net ⟨key, r.Token⟩ = .response 204 ())
    ∧ (∀ s, net ⟨key, r.Token⟩ = .response s () → s ≠ 204 →
        RestStorage.Unlock r key true true false net = .error (.msg (unexpectedMsg s)))
    ∧ (∀ net' : UnlockRequest → NetOutcome Unit, net ⟨key, r.Token⟩ = net' ⟨key, r.Token⟩ →
        RestStorage.Unlock r key marshalOk reqOk c net =
          RestStorage.Unlock r key marshalOk reqOk c net') := by
  refine ⟨?_, ?_, ?_⟩
  · cases marshalOk
    · simp [RestStorage.Unlock]
    · cases reqOk
      · simp [RestStorage.Unlock]
      · cases c
        · cases hn : net ⟨key, r.Token⟩ with
          | err => simp [RestStorage.Unlock, doRequest, hn]
          | response s b =>
            cases b
            by_cases h204 : s = 204
            · subst h204
              simp [RestStorage.Unlock, doRequest, hn]
            · simp [RestStorage.Unlock, doRequest, hn, h204]
        · simp [RestStorage.Unlock, doRequest]
  · intro s hn hs
    simp [RestStorage.Unlock, doRequest, hn, hs]
  · intro net' hnet
    simp [RestStorage.Unlock, doRequest, hnet]

/-- Witness for the amended C3: a 204 response makes `Unlock` succeed and
a 404 response yields the unexpected-status error for code 404. -/
theorem unlock_single_attempt_protocol_witness :
    RestStorage.Unlock ⟨"http://s/", "tok"⟩ ("k") true true false (fun _ => .response 204 ()) =
      .ok ()
    ∧ RestStorage.Unlock ⟨"http://s/", "tok"⟩ ("k") true true false (fun _ => .response 404 ()) =
      .error (.msg (unexpectedMsg 404)) := by
  constructor
  · exact ((unlock_single_attempt_protocol ⟨"http://s/", "tok"⟩ ("k") true true false
      (fun _ => .response 204 ())).1).mpr ⟨rfl, rfl, rfl, rfl⟩
  · exact (unlock_single_attempt_protocol ⟨"http://s/", "tok"⟩ ("k") true true false
      (fun _ => .response 404 ())).2.1 404 rfl (by omega)

/-- C4: the base64 encoding `Store` applies to the payload (the wire
`value` field of its `StoreRequest`) composed with the base64 decoding
`Load` applies to a 200 response body is the identity on every byte
sequence, including the empty one. -/
theorem store_load_roundtrip (r : RestStorage) (key : String) (v : List Nat)
    (hv : ∀ b ∈ v, b < 256) :
    RestStorage.Load r key true true false
      (fun _ => .response 200 (some ⟨(storeRequest r key v).Value⟩)) = .ok v := by
  have hs : (String.mk (encodeGroups v)).data = encodeGroups v := rfl
  simp [RestStorage.Load, doRequest, storeRequest, hs, decodeGroups_encodeGroups v hv]

/-- Witness for C4 on a concrete binary payload (containing a zero byte,
a 0xFF byte, and a length not divisible by three). -/
theorem store_load_roundtrip_witness :
    RestStorage.Load ⟨"http://s/", "tok"⟩ ("k") true true false
      (fun _ => .response 200 (some ⟨(storeRequest ⟨"http://s/", "tok"⟩ ("k") [0, 255, 10, 7]).Value⟩)) =
      .ok [0, 255, 10, 7] :=
  store_load_roundtrip ⟨"http://s/", "tok"⟩ ("k") [0, 255, 10, 7] (by decide)

/-- C5: `Exists` is total over its boolean contract: it returns `true`
exactly when marshalling and request building succeed, the context is not
cancelled, the transport delivers a 200 response, and the body decodes to
`{exists: true}` — every other outcome (marshal failure, request-build
failure, cancellation, transport error, non-200 status, decode failure,
or a decoded `false`) returns `false`, never an error. -/
theorem exists_boolean_total (r : RestStorage) (key : String) (marshalOk reqOk c : Bool)
    (net : ExistsRequest → NetOutcome (Option ExistsResponse)) :
    RestStorage.Exists r key marshalOk reqOk c net = true ↔
      marshalOk = true ∧ reqOk = true ∧ c = false ∧
        net ⟨key, r.Token⟩ = .response 200 (some ⟨true⟩) := by
  cases marshalOk
  · simp [RestStorage.Exists]
  · cases reqOk
    · simp [RestStorage.Exists]
    · cases c
      · cases hn : net ⟨key, r.Token⟩ with
        | err => simp [RestStorage.Exists, doRequest, hn]
        | response s b =>
          by_cases h200 : s = 200
          · subst h200
            cases b with
            | none => simp [RestStorage.Exists, doRequest, hn]
            | some er =>
              cases er with
              | mk ex => cases ex <;> simp [RestStorage.Exists, doRequest, hn]
          · cases b <;> simp [RestStorage.Exists, doRequest, hn, h200]
      · simp [RestStorage.Exists, doRequest]

/-- C6: for each of `Load`, `Delete`, `List` and `Stat`, the distinguished
not-found error (`fs.ErrNotExist`) is returned exactly when the operation
reaches the transport and observes a 404 response — never for a transport
failure, a cancellation, or any other status. -/
theorem notfound_iff_404 (r : RestStorage) (key pfx : String) (rec : Bool)
    (marshalOk reqOk c : Bool)
    (netL : LoadRequest → NetOutcome (Option LoadResponse))
    (netD : DeleteRequest → NetOutcome Unit)
    (netK : ListRequest → NetOutcome (Option ListResponse))
    (netS : StatRequest → NetOutcome (Option StatResponse)) :
    (RestStorage.Load r key marshalOk reqOk c netL = .error .notExist ↔
      marshalOk = true ∧ reqOk = true ∧ c = false ∧
        ∃ b, netL ⟨key, r.Token⟩ = .response 404 b)
    ∧ (RestStorage.Delete r key marshalOk reqOk c netD = .error .notExist ↔
      marshalOk = true ∧ reqOk = true ∧ c = false ∧
        netD ⟨key, r.Token⟩ = .response 404 ())
    ∧ (RestStorage.List r pfx rec marshalOk reqOk c netK = .error .notExist ↔
      marshalOk = true ∧ reqOk = true ∧ c = false ∧
        ∃ b, netK ⟨pfx, rec, r.Token⟩ = .response 404 b)
    ∧ (RestStorage.Stat r key marshalOk reqOk c netS = .error .notExist ↔
      marshalOk = true ∧ reqOk = true ∧ c = false ∧
        ∃ b, netS ⟨key, r.Token⟩ = .response 404 b) := by
  refine ⟨?_, ?_, ?_, ?_⟩
  · cases marshalOk
    · simp [RestStorage.Load]
    · cases reqOk
      · simp [RestStorage.Load]
      · cases c
        · cases hn : netL ⟨key, r.Token⟩ with
          | err => simp [RestStorage.Load, doRequest, hn]
          | response s b =>
            by_cases h404 : s = 404
            · subst h404
              simp [RestStorage.Load, doRequest, hn]
            · by_cases h200 : s = 200
              · subst h200
                cases b with
                | none => simp [RestStorage.Load, doRequest, hn, h404]
                | some lr =>
                  cases hdec : decodeGroups lr.Value.data <;>
                    simp [RestStorage.Load, doRequest, hn, h404, hdec]
              · simp [RestStorage.Load, doRequest, hn, h404, h200]
        · simp [RestStorage.Load, doRequest]
  · cases marshalOk
    · simp [RestStorage.Delete]
    · cases reqOk
      · simp [RestStorage.Delete]
      · cases c
        · cases hn : netD ⟨key, r.Token⟩ with
          | err => simp [RestStorage.Delete, doRequest, hn]
          | response s b =>
            cases b
            by_cases h404 : s = 404
            · subst h404
              simp [RestStorage.Delete, doRequest, hn]
            · by_cases h204 : s = 204
              · subst h204
                simp [RestStorage.Delete, doRequest, hn, h404]
              · simp [RestStorage.Delete, doRequest, hn, h404, h204]
        · simp [RestStorage.Delete, doRequest]
  · cases marshalOk
    · simp [RestStorage.List]
    · cases reqOk
      · simp [RestStorage.List]
      · cases c
        · cases hn : netK ⟨pfx, rec, r.Token⟩ with
          | err => simp [RestStorage.List, doRequest, hn]
          | response s b =>
            by_cases h404 : s = 404
            · subst h404
              simp [RestStorage.List, doRequest, hn]
            · by_cases h200 : s = 200
              · subst h200
                cases b <;> simp [RestStorage.List, doRequest, hn, h404]
              · simp [RestStorage.List, doRequest, hn, h404, h200]
        · simp [RestStorage.List, doRequest]
  · cases marshalOk
    · simp [RestStorage.Stat]
    · cases reqOk
      · simp [RestStorage.Stat]
      · cases c
        · cases hn : netS ⟨key, r.Token⟩ with
          | err => simp [RestStorage.Stat, doRequest, hn]
          | response s b =>
            by_cases h404 : s = 404
            · subst h404
              simp [RestStorage.Stat, doRequest, hn]
            · by_cases h200 : s = 200
              · subst h200
                cases b with
                | none => simp [RestStorage.Stat, doRequest, hn, h404]
                | some sr =>
                  cases hp : rfc3339Parse sr.Modified <;>
                    simp [RestStorage.Stat, doRequest, hn, h404, hp]
              · simp [RestStorage.Stat, doRequest, hn, h404, h200]
        · simp [RestStorage.Stat, doRequest]

/-- C7: whenever any operation rejects a response status outside its
documented set, the error is the unexpected-status message for that exact
numeric code, and the message determines the code (the mapping from code
to error value is injective, so the code received is recoverable from the
returned error). -/
theorem unexpected_status_carries_code :
    (∀ s t : Nat, unexpectedMsg s = unexpectedMsg t → s = t)
    ∧ (∀ (reqOk ctx : Nat → Bool) (net : Nat → NetOutcome Unit) fuel i s,
        lockStep reqOk ctx net i = .ok s → s ≠ 201 → s ≠ 412 →
        lockLoop reqOk ctx net (fuel + 1) i = some (.error (.msg (unexpectedMsg s))))
    ∧ (∀ (r : RestStorage) key s (net : UnlockRequest → NetOutcome Unit),
        net ⟨key, r.Token⟩ = .response s () → s ≠ 204 →
        RestStorage.Unlock r key true true false net = .error (.msg (unexpectedMsg s)))
    ∧ (∀ (r : RestStorage) key v s (net : StoreRequest → NetOutcome Unit),
        net (storeRequest r key v) = .response s () → s ≠ 201 →
        RestStorage.Store r key v true true false net = .error (.msg (unexpectedMsg s)))
    ∧ (∀ (r : RestStorage) key s b (net : LoadRequest → NetOutcome (Option LoadResponse)),
        net ⟨key, r.Token⟩ = .response s b → s ≠ 200 → s ≠ 404 →
        RestStorage.Load r key true true false net = .error (.msg (unexpectedMsg s)))
    ∧ (∀ (r : RestStorage) key s (net : DeleteRequest → NetOutcome Unit),
        net ⟨key, r.Token⟩ = .response s () → s ≠ 204 → s ≠ 404 →
        RestStorage.Delete r key true true false net = .error (.msg (unexpectedMsg s)))
    ∧ (∀ (r : RestStorage) pfx rec s b (net : ListRequest → NetOutcome (Option ListResponse)),
        net ⟨pfx, rec, r.Token⟩ = .response s b → s ≠ 200 → s ≠ 404 →
        RestStorage.List r pfx rec true true false net = .error (.msg (unexpectedMsg s)))
    ∧ (∀ (r : RestStorage) key s b (net : StatRequest → NetOutcome (Option StatResponse)),
        net ⟨key, r.Token⟩ = .response s b → s ≠ 200 → s ≠ 404 →
        RestStorage.Stat r key true true false net = .error (.msg (unexpectedMsg s))) := by
  refine ⟨unexpectedMsg_injective, ?_, ?_, ?_, ?_, ?_, ?_, ?_⟩
  · intro reqOk ctx net fuel i s hstep h201 h412
    rw [lockLoop, hstep]
    simp [h201, h412]
  · intro r key s net hn hs
    simp [RestStorage.Unlock, doRequest, hn, hs]
  · intro r key v s net hn hs
    simp [RestStorage.Store, doRequest, hn, hs]
  · intro r key s b net hn hs h404
    simp [RestStorage.Load, doRequest, hn, hs, h404]
  · intro r key s net hn hs h404
    simp [RestStorage.Delete, doRequest, hn, hs, h404]
  · intro r pfx rec s b net hn hs h404
    simp [RestStorage.List, doRequest, hn, hs, h404]
  · intro r key s b net hn hs h404
    simp [RestStorage.Stat, doRequest, hn, hs, h404]

/-- Witness for C7 at status 500: `Store` and `Load` both surface the
unexpected-status error carrying 500, and the message pins the code down. -/
theorem unexpected_status_carries_code_witness :
    (unexpectedMsg 500 = unexpectedMsg 500 → (500 : Nat) = 500)
    ∧ RestStorage.Store ⟨"http://s/", "tok"⟩ ("k") [7] true true false
        (fun _ => .response 500 ()) = .error (.msg (unexpectedMsg 500))
    ∧ RestStorage.Load ⟨"http://s/", "tok"⟩ ("k") true true false
        (fun _ => .response 500 none) = .error (.msg (unexpectedMsg 500)) := by
  refine ⟨unexpected_status_carries_code.1 500 500, ?_, ?_⟩
  · exact unexpected_status_carries_code.2.2.2.1 ⟨"http://s/", "tok"⟩ ("k") [7] 500
      (fun _ => .response 500 ()) rfl (by omega)
  · exact unexpected_status_carries_code.2.2.2.2.1 ⟨"http://s/", "tok"⟩ ("k") 500 none
      (fun _ => .response 500 none) rfl (by omega) (by omega)

/-- C8: on a 200 `Stat` response, a well-formed RFC3339 `modified` field
makes `Stat` return the `KeyInfo` whose `Modified` is exactly the instant
the string denotes, and a malformed field makes `Stat` return the
time-parse error — never a success with a zero-valued timestamp. -/
theorem stat_rfc3339_parsing (r : RestStorage) (key : String) (sr : StatResponse) :
    (∀ t, rfc3339Parse sr.Modified = some t →
      RestStorage.Stat r key true true false (fun _ => .response 200 (some sr)) =
        .ok ⟨sr.Key, t, sr.Size, sr.IsTerminal⟩)
    ∧ (rfc3339Parse sr.Modified = none →
      RestStorage.Stat r key true true false (fun _ => .response 200 (some sr)) =
        .error .timeParse) := by
  constructor
  · intro t hp
    simp [RestStorage.Stat, doRequest, hp]
  · intro hp
    simp [RestStorage.Stat, doRequest, hp]

/-- Witness for C8: `modified = "2023-05-01T12:00:00Z"` yields exactly the
epoch instant 1682942400s, and a day out of range yields the error. -/
theorem stat_rfc3339_parsing_witness :
    RestStorage.Stat ⟨"http://s/", "tok"⟩ ("k") true true false
      (fun _ => .response 200 (some ⟨"k", "2023-05-01T12:00:00Z", 5, true⟩)) =
      .ok ⟨"k", ⟨1682942400, 0⟩, 5, true⟩
    ∧ RestStorage.Stat ⟨"http://s/", "tok"⟩ ("k") true true false
      (fun _ => .response 200 (some ⟨"k", "2023-05-99T12:00:00Z", 5, true⟩)) =
      .error .timeParse := by
  constructor
  · exact (stat_rfc3339_parsing ⟨"http://s/", "tok"⟩ ("k")
      ⟨"k", "2023-05-01T12:00:00Z", 5, true⟩).1 ⟨1682942400, 0⟩ (by decide)
  · exact (stat_rfc3339_parsing ⟨"http://s/", "tok"⟩ ("k")
      ⟨"k", "2023-05-99T12:00:00Z", 5, true⟩).2 (by decide)

/-- C9: `Validate` succeeds exactly when both the endpoint and the token
are non-empty, and each failure message names the missing field. -/
theorem validate_iff_fields_nonempty (r : RestStorage) :
    (RestStorage.Validate r = none ↔ r.Endpoint ≠ "" ∧ r.Token ≠ "")
    ∧ (r.Endpoint = "" → RestStorage.Validate r = some ("endpoint must be specified"))
    ∧ (r.Endpoint ≠ "" → r.Token = "" →
        RestStorage.Validate r = some ("token must be specified")) := by
  refine ⟨?_, ?_, ?_⟩
  · by_cases he : r.Endpoint = "" <;> by_cases ht : r.Token = "" <;>
      simp [RestStorage.Validate, he, ht]
  · intro he
    simp [RestStorage.Validate, he]
  · intro he ht
    simp [RestStorage.Validate, he, ht]

/-- Witness for C9 at the three representative configurations. -/
theorem validate_iff_fields_nonempty_witness :
    RestStorage.Validate ⟨"http://s/", "tok"⟩ = none
    ∧ RestStorage.Validate ⟨"", "tok"⟩ = some ("endpoint must be specified")
    ∧ RestStorage.Validate ⟨"http://s/", ""⟩ = some ("token must be specified") := by
  refine ⟨?_, ?_, ?_⟩
  · exact (validate_iff_fields_nonempty ⟨"http://s/", "tok"⟩).1.mpr ⟨by decide, by decide⟩
  · exact (validate_iff_fields_nonempty ⟨"", "tok"⟩).2.1 rfl
  · exact (validate_iff_fields_nonempty ⟨"http://s/", ""⟩).2.2 (by decide) rfl

/-- C10: `UnmarshalCaddyfile` returns `nil` for every dispenser input; a
directive with no argument value is skipped (fields unchanged), and a
directive whose key is neither `endpoint` nor `token` is silently
ignored. -/
theorem unmarshal_caddyfile_total :
    (∀ (r : RestStorage) (ds : List (String × Option String)),
      ∃ r', RestStorage.UnmarshalCaddyfile r ds = .ok r')
    ∧ (∀ (r : RestStorage) k (ds : List (String × Option String)),
        RestStorage.UnmarshalCaddyfile r ((k, none) :: ds) =
          RestStorage.UnmarshalCaddyfile r ds)
    ∧ (∀ (r : RestStorage) k v (ds : List (String × Option String)),
        k ≠ "endpoint" → k ≠ "token" →
        RestStorage.UnmarshalCaddyfile r ((k, some v) :: ds) =
          RestStorage.UnmarshalCaddyfile r ds) := by
  refine ⟨?_, fun r k ds => rfl, ?_⟩
  · intro r ds
    induction ds generalizing r with
    | nil => exact ⟨r, rfl⟩
    | cons d rest ih =>
      match d with
      | (k, none) => exact ih r
      | (k, some v) => exact ih _
  · intro r k v ds hk1 hk2
    simp [RestStorage.UnmarshalCaddyfile, hk1, hk2]

/-- Witness for C10: an unrecognized directive leaves the configuration
untouched, and a mixed input still returns success. -/
theorem unmarshal_caddyfile_total_witness :
    RestStorage.UnmarshalCaddyfile ⟨"e", "t"⟩ [("bogus", some ("x"))] =
      RestStorage.UnmarshalCaddyfile ⟨"e", "t"⟩ []
    ∧ ∃ r', RestStorage.UnmarshalCaddyfile ⟨"", ""⟩
        [("endpoint", some ("http://s/")), ("token", none)] = .ok r' := by
  constructor
  · exact unmarshal_caddyfile_total.2.2 ⟨"e", "t"⟩ ("bogus") ("x") [] (by decide) (by decide)
  · exact unmarshal_caddyfile_total.1 ⟨"", ""⟩ [("endpoint", some ("http://s/")), ("token", none)]
